import Mathlib

set_option maxRecDepth 100000

/-!
Shallow embedding of the goresize image-resizing caching proxy (src/img.go).

Modelling conventions:
* Machine integers (Go int, int64) are Lean Int; 32-bit words inside the
  SHA-1 digest are Nat reduced modulo 2 ^ 32 at each operation.
* Go byte strings are modelled as Lean String at the character level; the
  byte sequence fed to the digest is the UTF-8 encoding of the characters
  (identical to Go, which stores strings as UTF-8 bytes).
* Redis and the filesystem are an explicit Store value; the asynchronous
  fire-and-forget writes (saveImageInCache, saveErrorInCache goroutines)
  are modelled as effect lists returned alongside each result, to be
  applied to a Store when the write is observed.
* Fallible external calls (image.Decode, Resample+png.Encode, the HTTP
  client) are parameters with Option/Except results; a Go runtime panic
  (out-of-range string slice) is a distinguished outcome, not a value.
-/

/-! ## SHA-1 (crypto/sha1), executable, over lists of byte values -/

/-- 2 ^ 32, the word modulus of SHA-1. -/
def w32 : Nat := 4294967296

/-- Rotate a 32-bit word left by n bits. -/
def rotl (n x : Nat) : Nat := ((x <<< n) ||| (x >>> (32 - n))) % w32

/-- Big-endian byte expansion: most significant of k bytes first. -/
def beBytes : Nat → Nat → List Nat
  | 0, _ => []
  | k + 1, n => ((n >>> (8 * k)) % 256) :: beBytes k n

/-- The 32-bit word formed by bytes 4i .. 4i+3 of a chunk (big-endian). -/
def wordOf (chunk : List Nat) (i : Nat) : Nat :=
  ((chunk.getD (4 * i) 0) <<< 24) ||| ((chunk.getD (4 * i + 1) 0) <<< 16) |||
    ((chunk.getD (4 * i + 2) 0) <<< 8) ||| (chunk.getD (4 * i + 3) 0)

/-- SHA-1 message-schedule extension: append n further words, each the
left-rotation by one of the xor of the words 3, 8, 14 and 16 back. -/
def extendW : Nat → List Nat → List Nat
  | 0, w => w
  | n + 1, w =>
    extendW n (w ++ [rotl 1 ((w.getD (w.length - 3) 0) ^^^ (w.getD (w.length - 8) 0) ^^^
      (w.getD (w.length - 14) 0) ^^^ (w.getD (w.length - 16) 0))])

/-- The SHA-1 round function, by round index. -/
def sha1F (i b c d : Nat) : Nat :=
  if i < 20 then (b &&& c) ||| ((b ^^^ 4294967295) &&& d)
  else if i < 40 then b ^^^ c ^^^ d
  else if i < 60 then (b &&& c) ||| (b &&& d) ||| (c &&& d)
  else b ^^^ c ^^^ d

/-- The SHA-1 round constant, by round index. -/
def sha1K (i : Nat) : Nat :=
  if i < 20 then 1518500249
  else if i < 40 then 1859775393
  else if i < 60 then 2400959708
  else 3395469782

/-- One SHA-1 round: update the (a, b, c, d, e) state with word wi at index i. -/
def sha1Round (i wi : Nat) (st : Nat × Nat × Nat × Nat × Nat) : Nat × Nat × Nat × Nat × Nat :=
  let (a, b, c, d, e) := st
  ((rotl 5 a + sha1F i b c d + e + sha1K i + wi) % w32, a, rotl 30 b, c, d)

/-- Process one 64-byte chunk, updating the five hash words. -/
def sha1Block (h : Nat × Nat × Nat × Nat × Nat) (chunk : List Nat) : Nat × Nat × Nat × Nat × Nat :=
  let w := extendW 64 ((List.range 16).map (wordOf chunk))
  let (a, b, c, d, e) := w.enum.foldl (fun st p => sha1Round p.1 p.2 st) h
  ((h.1 + a) % w32, (h.2.1 + b) % w32, (h.2.2.1 + c) % w32,
    (h.2.2.2.1 + d) % w32, (h.2.2.2.2 + e) % w32)

/-- Merkle-Damgard padding: 0x80, zeros to 56 mod 64, 8-byte big-endian bit length. -/
def sha1Pad (msg : List Nat) : List Nat :=
  msg ++ [128] ++ List.replicate ((119 - msg.length % 64) % 64) 0 ++ beBytes 8 (8 * msg.length)

/-- Split into 64-byte chunks; the first argument is fuel (call with the length). -/
def chunks64 : Nat → List Nat → List (List Nat)
  | 0, _ => []
  | _, [] => []
  | fuel + 1, a :: rest => ((a :: rest).take 64) :: chunks64 fuel (rest.drop 63)

/-- The 20-byte SHA-1 digest of a byte list. -/
def sha1 (msg : List Nat) : List Nat :=
  let padded := sha1Pad msg
  let h := (chunks64 padded.length padded).foldl sha1Block
    (1732584193, 4023233417, 2562383102, 271733878, 3285377520)
  beBytes 4 h.1 ++ beBytes 4 h.2.1 ++ beBytes 4 h.2.2.1 ++ beBytes 4 h.2.2.2.1 ++ beBytes 4 h.2.2.2.2

/-- UTF-8 encoding of one character as byte values (Go strings are UTF-8 bytes). -/
def utf8Bytes (c : Char) : List Nat :=
  let n := c.toNat
  if n < 128 then [n]
  else if n < 2048 then [192 ||| (n >>> 6), 128 ||| (n &&& 63)]
  else if n < 65536 then
    [224 ||| (n >>> 12), 128 ||| ((n >>> 6) &&& 63), 128 ||| (n &&& 63)]
  else
    [240 ||| (n >>> 18), 128 ||| ((n >>> 12) &&& 63), 128 ||| ((n >>> 6) &&& 63), 128 ||| (n &&& 63)]

/-- The byte sequence of a Go string (UTF-8, as written by io.WriteString). -/
def strBytes (s : String) : List Nat := s.data.flatMap utf8Bytes

/-- Lowercase hex digit. -/
def hexDigit (n : Nat) : Char := if n < 10 then Char.ofNat (48 + n) else Char.ofNat (87 + n)

/-- A byte as two lowercase hex digits (the %x verb on one byte). -/
def byteToHex (b : Nat) : String := ⟨[hexDigit (b / 16), hexDigit (b % 16)]⟩

/-- A byte slice as lowercase hex (the %x verb on a byte slice). -/
def bytesToHex (l : List Nat) : String := l.foldl (fun s b => s ++ byteToHex b) ""

/-! ## Data model (img.go) -/

/-- HTTP headers struct (img.go lines 31-35). Go zero value: all fields empty. -/
structure Headers where
  contentType : String
  lastModified : String
  cacheControl : String
deriving DecidableEq, Repr

/-- The maximal size for an image is 5MB (img.go line 41, 5 * (1 << 20)).
Int because it is compared against a Go int64 content length and an int64
width-height product. -/
def maxSize : Int := 5 * (1 <<< 20)

/-- Stat and read result for one cache file: modification time (already
formatted as RFC1123 by the model, since only the formatted string is
observed) and file contents. -/
structure FileInfo where
  modTime : String
  contents : String
deriving DecidableEq, Repr

/-- The externally visible state the pipeline reads: the redis hash field
type per key (Hget k type), the redis plain values (Get k, negative-cache
entries), and the cache directory files keyed by full path. -/
structure Store where
  hashType : String → Option String
  errEntry : String → Option String
  file : String → Option FileInfo

/-- A pending saveImageInCache write: uri, variation, the persisted
content-type and the body bytes (img.go lines 95-114). -/
structure ImgSave where
  uri : String
  variation : String
  contentType : String
  body : String
deriving DecidableEq, Repr

/-- The fire-and-forget effects of one pipeline run: whether the origin
server was contacted, whether the resize engine ran, the saveErrorInCache
writes (key, message, expiry seconds) and the saveImageInCache writes. -/
structure Effects where
  originFetched : Bool
  resizeComputed : Bool
  errSaves : List (String × String × Nat)
  imgSaves : List ImgSave
deriving DecidableEq, Repr

/-- No effects yet. -/
def noEffects : Effects := ⟨false, false, [], []⟩

/-! ## Cache key and cache read/write (img.go lines 50-122) -/

/-- Check if an URL is valid and not temporary in error (img.go lines 50-58):
some message when a live negative-cache entry exists, none otherwise. -/
def urlStatus (store : Store) (uri : String) : Option String :=
  store.errEntry ("img/err/" ++ uri)

/-- Generate a key for cache from a string (img.go lines 61-68):
directory/x/x/x/x with the sha1 digest split 1+1+1+17 bytes, lowercase hex. -/
def generateKeyForCache (directory s : String) : String :=
  let key := sha1 (strBytes s)
  directory ++ "/" ++ bytesToHex (key.take 1) ++ "/" ++ bytesToHex ((key.drop 1).take 1) ++
    "/" ++ bytesToHex ((key.drop 2).take 1) ++ "/" ++ bytesToHex (key.drop 3)

/-- Fetch image from cache (img.go lines 71-92): metadata lookup on
img/variation/uri, then stat and read of the file at the key derived from
the BARE uri. A stat or read failure is a miss. The returned cacheControl
is the Go zero value (empty). -/
def fetchImageFromCache (directory : String) (store : Store) (uri variation : String) :
    Option (Headers × String) :=
  match store.hashType ("img/" ++ variation ++ "/" ++ uri) with
  | none => none
  | some contentType =>
    match store.file (generateKeyForCache directory uri) with
    | none => none
    | some fi => some (⟨contentType, fi.modTime, ""⟩, fi.contents)

/-- The content-store path saveImageInCache writes (img.go line 97): the key
is derived from variation ++ colon ++ uri, unlike the read side. -/
def savePath (directory uri variation : String) : String :=
  generateKeyForCache directory (variation ++ ":" ++ uri)

/-- Observe one completed saveImageInCache goroutine (img.go lines 95-114):
the body lands at savePath and the content-type in the metadata hash. The
mtime argument is the resulting file modification time. -/
def applyImgSave (directory mtime : String) (store : Store) (e : ImgSave) : Store :=
  { hashType := fun k =>
      if k = "img/" ++ e.variation ++ "/" ++ e.uri then some e.contentType else store.hashType k,
    errEntry := store.errEntry,
    file := fun p =>
      if p = savePath directory e.uri e.variation then some ⟨mtime, e.body⟩ else store.file p }

/-- Observe all pending image saves of an effect list, in order. -/
def applyEffects (directory mtime : String) (store : Store) (eff : Effects) : Store :=
  eff.imgSaves.foldl (applyImgSave directory mtime) store

/-! ## Origin fetch (img.go lines 125-167) -/

/-- What the origin returns for one GET: a transport error (client.Get err),
or a response with status code, declared ContentLength (int64, -1 when
undeclared), the Content-Type header value (empty when absent), the body,
and whether reading the body fails (ReadAll err message). -/
structure OriginResponse where
  transportError : Option String
  statusCode : Int
  contentLength : Int
  contentType : String
  body : String
  readFails : Option String
deriving DecidableEq, Repr

/-- Outcome of fetchImageFromServer, one constructor per exit path. panicked
is the Go runtime panic of an out-of-range string slice. -/
inductive ServerOutcome where
  | transportError (msg : String)
  | unexpectedStatus
  | readError (msg : String)
  | exceededMaxSize
  | panicked
  | invalidContentType
  | success (headers : Headers) (body : String)
deriving DecidableEq, Repr

/-- Go string slicing s[i:j] over bytes (ASCII here, so characters): none
models the runtime panic raised when j exceeds the length. -/
def goStringSlice (s : String) (i j : Nat) : Option String :=
  if i ≤ j ∧ j ≤ s.length then some ⟨(s.data.drop i).take (j - i)⟩ else none

/-- The saveErrorInCache effect (img.go lines 117-122): Set img/err/uri to
the message, Expire 600 seconds. -/
def errSaveOf (uri msg : String) : String × String × Nat := ("img/err/" ++ uri, msg, 600)

/-- Fetch the image from the distant server (img.go lines 125-167), given the
origin behaviour for this GET and the current time now (already formatted).
Every branch reports originFetched since client.Get was issued. Checks in
source order: transport error; status not 200 (negative-cached); body read
error; declared ContentLength above maxSize (negative-cached); the
Content-Type slice [0:5], which panics when the header is shorter than five
bytes; slice not equal to image (negative-cached); then success, with the
orig variation saved only when no live negative entry exists (line 163). -/
def fetchImageFromServer (store : Store) (resp : OriginResponse) (now uri : String) :
    ServerOutcome × Effects :=
  let fetched : Effects := { noEffects with originFetched := true }
  match resp.transportError with
  | some m => (.transportError m, fetched)
  | none =>
    if resp.statusCode ≠ 200 then
      (.unexpectedStatus, { fetched with errSaves := [errSaveOf uri "Unexpected status code"] })
    else
      match resp.readFails with
      | some m => (.readError m, fetched)
      | none =>
        if resp.contentLength > maxSize then
          (.exceededMaxSize, { fetched with errSaves := [errSaveOf uri "Exceeded max size"] })
        else
          match goStringSlice resp.contentType 0 5 with
          | none => (.panicked, fetched)
          | some firstFive =>
            if firstFive ≠ "image" then
              (.invalidContentType,
                { fetched with errSaves := [errSaveOf uri "Invalid content-type"] })
            else
              let headers : Headers := ⟨resp.contentType, now, ""⟩
              if (urlStatus store uri).isNone then
                (.success headers resp.body,
                  { fetched with imgSaves := [⟨uri, "orig", resp.contentType, resp.body⟩] })
              else
                (.success headers resp.body, fetched)

/-! ## fetchImage / resizeImage / fetchResizedImage (img.go lines 170-253) -/

/-- Result of one pipeline stage: a Go error value, a runtime panic, or
headers plus body. -/
inductive PipeResult where
  | panicked
  | failed (msg : String)
  | ok (headers : Headers) (body : String)
deriving DecidableEq, Repr

/-- Fetch image from cache if available, or from the server (img.go lines
170-184): negative cache first, then the orig variation of the cache, then
the origin server; cacheControl is set on the way out of the non-error
paths. -/
def fetchImage (directory : String) (store : Store) (resp : OriginResponse) (now uri : String) :
    PipeResult × Effects :=
  match urlStatus store uri with
  | some e => (.failed e, noEffects)
  | none =>
    match fetchImageFromCache directory store uri "orig" with
    | some (h, b) => (.ok { h with cacheControl := "public, max-age=600" } b, noEffects)
    | none =>
      let se := fetchImageFromServer store resp now uri
      match se.1 with
      | .transportError m => (.failed m, se.2)
      | .unexpectedStatus => (.failed "Unexpected status code", se.2)
      | .readError m => (.failed m, se.2)
      | .exceededMaxSize => (.failed "Exceeded max size", se.2)
      | .panicked => (.panicked, se.2)
      | .invalidContentType => (.failed "Invalid content-type", se.2)
      | .success h b => (.ok { h with cacheControl := "public, max-age=600" } b, se.2)

/-! ## IEEE-754 binary64 (Go float64) arithmetic

resizeImage computes its dimensions in Go float64 arithmetic, and the
rounding is observable (a 9 by 9 source with a 7 by 7 target yields 6 by 6
where exact rational arithmetic would yield 7 by 7), so float64 is modelled
faithfully: a value is NaN, an infinity, or the exact rational it
represents, and division rounds the exact quotient to 53 significant bits,
nearest-ties-to-even, with gradual underflow and overflow to infinity —
exactly the IEEE-754 semantics Go specifies for float64. Signed zeros are
not distinguished: a negative zero could only arise here from zero or
negative dimensions, and every such path ends in a NaN or infinite
conversion whose Go behaviour is implementation-defined (see goInt). -/

/-- A Go float64 value. -/
inductive GoFloat where
  | nan
  | posInf
  | negInf
  | finite (val : ℚ)
deriving DecidableEq, Repr

/-- Bit length of n, with explicit fuel so kernel reduction is structural. -/
def bitLenAux : Nat → Nat → Nat
  | 0, _ => 0
  | fuel + 1, n => if n = 0 then 0 else bitLenAux fuel (n / 2) + 1

/-- Bit length: 0 for 0, otherwise the exponent k with 2 ^ (k-1) ≤ n < 2 ^ k. -/
def bitLen (n : Nat) : Nat := bitLenAux (n + 1) n

/-- Is n / d at least 2 ^ e (n, d positive)? -/
def ratGePow2 (n d : Nat) (e : Int) : Bool :=
  if 0 ≤ e then d <<< e.toNat ≤ n else d ≤ n <<< (-e).toNat

/-- Does m * 2 ^ s reach the binary64 overflow threshold 2 ^ 1024? -/
def overflowCheck (m : Nat) (s : Int) : Bool :=
  if 1024 ≤ s then true else 1 <<< (1024 - s).toNat ≤ m

/-- Round the positive rational n / d (d nonzero) to the nearest binary64
value, ties to even: find the floor exponent e of n / d, scale to an
integer significand in units of 2 ^ s (s = e - 52, clamped to the
subnormal grain -1074 when e < -1022), round the scaled quotient
half-to-even, and overflow to infinity at 2 ^ 1024. neg applies the sign
to the result. -/
def roundPos (n d : Nat) (neg : Bool) : GoFloat :=
  if n = 0 then .finite 0
  else
    let e0 : Int := (bitLen n : Int) - (bitLen d : Int)
    let e : Int := if ratGePow2 n d e0 then e0 else e0 - 1
    let s : Int := if e < -1022 then -1074 else e - 52
    let N : Nat := if s ≤ 0 then n <<< (-s).toNat else n
    let D : Nat := if s ≤ 0 then d else d <<< s.toNat
    let q : Nat := N / D
    let r : Nat := N % D
    let m : Nat :=
      if 2 * r < D then q
      else if D < 2 * r then q + 1
      else if q % 2 = 0 then q else q + 1
    if overflowCheck m s then (if neg then .negInf else .posInf)
    else
      let sm : Int := if neg then -(m : Int) else (m : Int)
      if 0 ≤ s then .finite (Rat.divInt (sm * ((1 <<< s.toNat : Nat) : Int)) 1)
      else .finite (Rat.divInt sm ((1 <<< (-s).toNat : Nat) : Int))

/-- Round the rational n / d to binary64; a zero divisor gives the IEEE
quotient specials (NaN for 0/0, a signed infinity otherwise). -/
def roundIntPair (n d : Int) : GoFloat :=
  if d = 0 then (if n = 0 then .nan else if n < 0 then .negInf else .posInf)
  else roundPos n.natAbs d.natAbs (decide (n < 0) != decide (d < 0))

/-- Go float64(v) for an integer v: correctly rounded, exact below 2 ^ 53
(decoded image bounds and int targets always are). -/
def goFromInt (v : Int) : GoFloat := roundIntPair v 1

/-- IEEE binary64 division: the correctly rounded exact quotient, with the
NaN, infinity and zero-divisor special cases (zero treated as +0). -/
def goDiv : GoFloat → GoFloat → GoFloat
  | .nan, _ => .nan
  | _, .nan => .nan
  | .posInf, .posInf => .nan
  | .posInf, .negInf => .nan
  | .negInf, .posInf => .nan
  | .negInf, .negInf => .nan
  | .posInf, .finite q => if q < 0 then .negInf else .posInf
  | .negInf, .finite q => if q < 0 then .posInf else .negInf
  | .finite _, .posInf => .finite 0
  | .finite _, .negInf => .finite 0
  | .finite a, .finite b =>
    if b = 0 then
      (if a = 0 then .nan else if a < 0 then .negInf else .posInf)
    else roundIntPair (a.num * (b.den : Int)) ((a.den : Int) * b.num)

/-- math.Max: NaN propagates, positive infinity dominates. -/
def goMax : GoFloat → GoFloat → GoFloat
  | .nan, _ => .nan
  | _, .nan => .nan
  | .posInf, _ => .posInf
  | _, .posInf => .posInf
  | .negInf, b => b
  | a, .negInf => a
  | .finite a, .finite b => .finite (max a b)

/-- math.Min: NaN propagates, negative infinity dominates. -/
def goMin : GoFloat → GoFloat → GoFloat
  | .nan, _ => .nan
  | _, .nan => .nan
  | .negInf, _ => .negInf
  | _, .negInf => .negInf
  | .posInf, b => b
  | a, .posInf => a
  | .finite a, .finite b => .finite (min a b)

/-- math.Floor. The floor of a representable value is representable. -/
def goFloor : GoFloat → GoFloat
  | .nan => .nan
  | .posInf => .posInf
  | .negInf => .negInf
  | .finite q => .finite ((q.floor : Int) : ℚ)

/-- Go int(x): the fractional part is discarded, truncation toward zero.
For NaN, the infinities, and values outside the int range the Go conversion
is implementation-defined; the model returns 0 for the specials and the
mathematical truncation otherwise, and no theorem relies on those corners
(they require zero, negative or non-int64 dimensions). -/
def goInt : GoFloat → Int
  | .finite q => q.num.tdiv (q.den : Int)
  | _ => 0

/-- The new dimensions computed by resizeImage when it downscales (img.go
lines 231-234), in IEEE-754 double precision exactly as Go evaluates it:
ratio := math.Max(float64(origWidth), float64(origHeight)) divided by
math.Min(float64(width), float64(height)), then int(math.Floor(float64(o) /
ratio)) per axis. The rounding is observable: 9 by 9 at target 7 by 7
yields ratio 1.2857142857142858 (just above 9/7), quotient
6.999999999999999, hence 6 — where exact arithmetic yields 7. -/
def resizedDims (origWidth origHeight width height : Int) : Int × Int :=
  let ratio := goDiv (goMax (goFromInt origWidth) (goFromInt origHeight))
    (goMin (goFromInt width) (goFromInt height))
  (goInt (goFloor (goDiv (goFromInt origWidth) ratio)),
    goInt (goFloor (goDiv (goFromInt origHeight) ratio)))

/-- resizeImage (img.go lines 214-253). decode stands for image.Decode,
returning the decoded bounds (Dx, Dy) or the decode error message;
resampleEncode stands for Resample followed by png.Encode, returning the
re-encoded bytes from the source bytes and new dimensions, or the encode
error message. When both target dimensions already cover the original, the
original headers and body are returned unchanged; otherwise the result
content-type is forced to image/png. -/
def resizeImage (decode : String → Except String (Int × Int))
    (resampleEncode : String → Int → Int → Except String String)
    (origBody : String) (origHeaders : Headers) (width height : Int) : PipeResult :=
  match decode origBody with
  | .error m => .failed m
  | .ok (origWidth, origHeight) =>
    if width ≥ origWidth ∧ height ≥ origHeight then
      .ok origHeaders origBody
    else
      let (newWidth, newHeight) := resizedDims origWidth origHeight width height
      match resampleEncode origBody newWidth newHeight with
      | .error m => .failed m
      | .ok body => .ok { origHeaders with contentType := "image/png" } body

/-- fetchResizedImage (img.go lines 186-212): look up the resize/w/h
variation in the cache (returning it directly on a hit, with no
cacheControl set on that path); otherwise fetchImage, resize, and schedule
the resized variant save. The dead err check at line 189 is elided (err is
always nil there). -/
def fetchResizedImage (directory : String) (store : Store) (resp : OriginResponse)
    (now : String) (decode : String → Except String (Int × Int))
    (resampleEncode : String → Int → Int → Except String String)
    (uri : String) (width height : Int) : PipeResult × Effects :=
  let variation := "resize/" ++ toString width ++ "/" ++ toString height
  match fetchImageFromCache directory store uri variation with
  | some (h, b) => (.ok h b, noEffects)
  | none =>
    let fi := fetchImage directory store resp now uri
    match fi.1 with
    | .failed m => (.failed m, fi.2)
    | .panicked => (.panicked, fi.2)
    | .ok h b =>
      match resizeImage decode resampleEncode b h width height with
      | .failed m => (.failed m, { fi.2 with resizeComputed := true })
      | .panicked => (.panicked, { fi.2 with resizeComputed := true })
      | .ok h2 b2 =>
        (.ok h2 b2,
          { fi.2 with resizeComputed := true,
                      imgSaves := fi.2.imgSaves ++ [⟨uri, variation, h2.contentType, b2⟩] })

/-! ## Request boundary (img.go lines 257-314) -/

/-- strconv.ParseInt(s, 10, 32): optional sign, then one or more decimal
digits, range-checked against int32. -/
def goParseInt32 (s : String) : Option Int :=
  match s.data with
  | [] => none
  | c :: rest =>
    let (neg, digits) :=
      if c = '-' then (true, rest)
      else if c = '+' then (false, rest)
      else (false, c :: rest)
    if digits.isEmpty || !(digits.all Char.isDigit) then none
    else
      let v : Nat := digits.foldl (fun a d => 10 * a + (d.toNat - 48)) 0
      let i : Int := if neg then -(v : Int) else (v : Int)
      if i < -(2 ^ 31) ∨ i > 2 ^ 31 - 1 then none else some i

/-- encoding/hex digit value: 0-9, a-f, A-F. -/
def hexVal (c : Char) : Option Nat :=
  if '0' ≤ c ∧ c ≤ '9' then some (c.toNat - 48)
  else if 'a' ≤ c ∧ c ≤ 'f' then some (c.toNat - 87)
  else if 'A' ≤ c ∧ c ≤ 'F' then some (c.toNat - 55)
  else none

/-- hex.DecodeString: two hex digits per output byte; an invalid digit or an
odd length is an error. -/
def goHexDecode : List Char → Option (List Char)
  | [] => some []
  | [_] => none
  | a :: b :: rest =>
    match hexVal a, hexVal b with
    | some x, some y =>
      match goHexDecode rest with
      | some cs => some (Char.ofNat (16 * x + y) :: cs)
      | none => none
    | _, _ => none

/-- The response the Image handler produces. badRequest is http.Error 400,
notFound the fn() callback installed by Img (http.NotFound), notModified
the bare 304 status with no body, okResp the three headers plus body.
panicked records that a pipeline panic propagated out of the handler. -/
inductive HttpResponse where
  | badRequest (msg : String)
  | notFound
  | notModified
  | okResp (contentType lastModified cacheControl body : String)
  | panicked
deriving DecidableEq, Repr

/-- Image handler (img.go lines 257-306), with fetchResizedImage abstracted
as the pipeline parameter (called on the decoded uri and the parsed
dimensions). The Bool result records whether the pipeline was invoked at
all. Source order: parse width, parse height, reject width * height above
maxSize, hex-decode the url, run the pipeline, map errors to the fn()
not-found callback, answer 304 when If-Modified-Since equals the computed
Last-Modified, else send the body with the three headers. -/
def Image (strWidth strHeight encodedUrl ifModifiedSince : String)
    (pipeline : String → Int → Int → PipeResult) : HttpResponse × Bool :=
  match goParseInt32 strWidth with
  | none => (.badRequest "Invalid parameters", false)
  | some width =>
    match goParseInt32 strHeight with
    | none => (.badRequest "Invalid parameters", false)
    | some height =>
      if width * height > maxSize then
        (.badRequest "Requested resized image exceeds max size", false)
      else
        match goHexDecode encodedUrl.data with
        | none => (.badRequest "Invalid parameters", false)
        | some chars =>
          match pipeline ⟨chars⟩ width height with
          | .panicked => (.panicked, true)
          | .failed _ => (.notFound, true)
          | .ok headers body =>
            if headers.lastModified = ifModifiedSince then (.notModified, true)
            else (.okResp headers.contentType headers.lastModified headers.cacheControl body, true)

/-! ## Concrete fixtures used by the theorems below -/

/-- The empty external state: no redis entries, no cache files. -/
def emptyStore : Store := ⟨fun _ => none, fun _ => none, fun _ => none⟩

/-- A healthy origin: 200, a small declared length, an image content type. -/
def okOrigin : OriginResponse := ⟨none, 200, 10, "image/png", "ORIGBYTES", none⟩

/-- A decoder reporting a 10 by 10 image (used where the resize outcome does
not matter: with a 50 by 50 target the no-upscale branch is taken). -/
def decodeSmall : String → Except String (Int × Int) := fun _ => .ok (10, 10)

/-- A decoder reporting a 200 by 100 image. -/
def decodeWide : String → Except String (Int × Int) := fun _ => .ok (200, 100)

/-- A decoder reporting a 9 by 9 image. -/
def decodeSquare : String → Except String (Int × Int) := fun _ => .ok (9, 9)

/-- A resample-and-encode stand-in that records the requested dimensions in
the produced bytes, so theorems can observe them. -/
def encodeProbe : String → Int → Int → Except String String :=
  fun _ nw nh => .ok ("R" ++ toString nw ++ "x" ++ toString nh)

/-- A pipeline stand-in for the Image handler that records its three
arguments in the response headers and body. -/
def probePipeline : String → Int → Int → PipeResult :=
  fun uri w h => .ok ⟨"w=" ++ toString w, "h=" ++ toString h, "u=" ++ uri⟩ "PROBE"

/-- First request of the round-trip scenario: empty state, healthy origin,
url u, target 50 by 50. -/
def run1 : PipeResult × Effects :=
  fetchResizedImage "cache" emptyStore okOrigin "T1" decodeSmall encodeProbe "u" 50 50

/-- The state after both asynchronous writes of the first request are
observed (files get modification time M1). -/
def store1 : Store := applyEffects "cache" "M1" emptyStore run1.2

/-- Second, identical request against the updated state. -/
def run2 : PipeResult × Effects :=
  fetchResizedImage "cache" store1 okOrigin "T2" decodeSmall encodeProbe "u" 50 50

/-- A state holding a cached resized variant for url u under variation
resize/50/50 together with a live negative-cache entry for u. Every file
path is populated, so the content-store read succeeds. -/
def hitStore : Store :=
  ⟨fun k => if k = "img/resize/50/50/u" then some "image/jpeg" else none,
   fun k => if k = "img/err/u" then some "Unexpected status code" else none,
   fun _ => some ⟨"MTIME", "CACHEDBYTES"⟩⟩

/-- A state holding only a live negative-cache entry for url u. -/
def errOnlyStore : Store :=
  ⟨fun _ => none, fun k => if k = "img/err/u" then some "Unexpected status code" else none,
   fun _ => none⟩

/-- An origin answering 200 with a readable body and an absent Content-Type
header (the Go Header.Get result is the empty string). -/
def emptyCTResp : OriginResponse := ⟨none, 200, 10, "", "BODY", none⟩

/-- Like emptyCTResp but with a four-byte Content-Type header. -/
def shortCTResp : OriginResponse := ⟨none, 200, 10, "text", "BODY", none⟩

/-- A 200 response whose Content-Type is long enough and not an image. -/
def htmlResp : OriginResponse := ⟨none, 200, 10, "text/html", "BODY", none⟩

/-- A body one byte above the 5 MiB ceiling. -/
def bigBody : String := ⟨List.replicate (5 * 1048576 + 1) 'a'⟩

/-- A 200 image response carrying bigBody with no declared Content-Length
(the Go ContentLength field is -1 for a chunked response). -/
def chunkedBigResp : OriginResponse := ⟨none, 200, -1, "image/png", bigBody, none⟩

/-- A 200 image response declaring a Content-Length just above the ceiling. -/
def declaredBigResp : OriginResponse := ⟨none, 200, maxSize + 1, "image/png", "B", none⟩

/-- An origin answering 404. -/
def status404Resp : OriginResponse := ⟨none, 404, 10, "image/png", "B", none⟩

/-- A pipeline stand-in that always succeeds with fixed headers and body. -/
def okPipeline : String → Int → Int → PipeResult := fun _ _ _ => .ok ⟨"ct", "LM", "cc"⟩ "BD"

/-! ## Theorems -/

/-- SHA-1 test vector: the digest of the bytes of the string abc. -/
theorem sha1_abc :
    bytesToHex (sha1 (strBytes "abc")) = "a9993e364706816aba3e25717850c26c9cd0d89d" := by
  decide

/-- The size ceiling is the expected constant. -/
theorem maxSize_value : maxSize = 5242880 := by decide

/-- C10. Implicit — negative dimensions pass validation: the request with
width -1 and height -1 and a well-formed hex url parses, its product 1 is
below the ceiling, no 400 is returned, and the pipeline is invoked with
target dimensions -1 and -1 (observed through the probe pipeline, which
echoes its arguments into the response). -/
theorem negative_dims_accepted :
    Image "-1" "-1" "6162" "" probePipeline = (.okResp "w=-1" "h=-1" "u=ab" "PROBE", true) := by
  decide

/-- C1. The claimed cache put/get round-trip does not hold on the code: the
path written by saveImageInCache (derived from variation, colon, url) is
not the path read by fetchImageFromCache (derived from the bare url), so
after the first request for url u completes with both writes observed, the
metadata lookup hits but the file read misses, and the second identical
request performs another origin fetch and another resize computation. -/
theorem cache_put_get_path_mismatch :
    savePath "cache" "u" "orig" ≠ generateKeyForCache "cache" "u" ∧
    savePath "cache" "u" "resize/50/50" ≠ generateKeyForCache "cache" "u" ∧
    run1.1 = .ok ⟨"image/png", "T1", "public, max-age=600"⟩ "ORIGBYTES" ∧
    run1.2.imgSaves = [⟨"u", "orig", "image/png", "ORIGBYTES"⟩,
      ⟨"u", "resize/50/50", "image/png", "ORIGBYTES"⟩] ∧
    store1.hashType "img/resize/50/50/u" = some "image/png" ∧
    fetchImageFromCache "cache" store1 "u" "resize/50/50" = none ∧
    fetchImageFromCache "cache" store1 "u" "orig" = none ∧
    run2.2.originFetched = true ∧ run2.2.resizeComputed = true := by
  decide

/-- C2 counterexample. A state with a cached resized variant and a live
negative-cache entry for the same url: fetchResizedImage returns the cached
variant instead of failing with the recorded reason. -/
theorem variant_cache_beats_negcache :
    urlStatus hitStore "u" = some "Unexpected status code" ∧
    fetchResizedImage "cache" hitStore okOrigin "T" decodeSmall encodeProbe "u" 50 50 =
      (.ok ⟨"image/jpeg", "MTIME", ""⟩ "CACHEDBYTES", noEffects) := by
  decide

/-- C2 amended. The negative cache is consulted after the resized-variant
cache but before any origin work: when the resized variant misses and a
live ErrorRecord exists, the operation fails immediately with the recorded
reason and produces no effects (in particular no origin fetch). -/
theorem negcache_checked_before_origin (d : String) (store : Store) (resp : OriginResponse)
    (now : String) (decode : String → Except String (Int × Int))
    (re : String → Int → Int → Except String String) (uri : String) (w h : Int) (e : String)
    (hmiss : fetchImageFromCache d store uri ("resize/" ++ toString w ++ "/" ++ toString h) = none)
    (herr : urlStatus store uri = some e) :
    fetchResizedImage d store resp now decode re uri w h = (.failed e, noEffects) := by
  unfold fetchResizedImage
  dsimp only
  rw [hmiss]
  unfold fetchImage
  rw [herr]

/-- C2 amended, witness at a concrete state with only a negative entry. -/
theorem negcache_checked_before_origin_witness :
    fetchResizedImage "cache" errOnlyStore okOrigin "T" decodeSmall encodeProbe "u" 50 50 =
      (.failed "Unexpected status code", noEffects) :=
  negcache_checked_before_origin "cache" errOnlyStore okOrigin "T" decodeSmall encodeProbe
    "u" 50 50 "Unexpected status code" (by decide) (by decide)

/-- C3. The content-type check is not total: an origin 200 response whose
body reads fine but whose Content-Type header is absent (empty) or shorter
than five bytes makes the check fault (the Go slice contentType[0:5] is out
of range), rather than return the InvalidContentType failure; no negative
cache entry is recorded on that path. With a header of five or more bytes
not beginning with image, the InvalidContentType failure is produced. -/
theorem contenttype_check_faults :
    (fetchImageFromServer emptyStore emptyCTResp "T" "u").1 = .panicked ∧
    (fetchImageFromServer emptyStore emptyCTResp "T" "u").2.errSaves = [] ∧
    (fetchImageFromServer emptyStore shortCTResp "T" "u").1 = .panicked ∧
    (fetchImageFromServer emptyStore htmlResp "T" "u") =
      (.invalidContentType,
        { originFetched := true, resizeComputed := false,
          errSaves := [errSaveOf "u" "Invalid content-type"], imgSaves := [] }) := by
  decide

/-- C4 counterexample. A raw payload one byte above 5 MiB arriving without a
declared Content-Length (the field is -1) is accepted as a success and its
bytes are scheduled for storage in the content store: the ceiling is
checked against the declared length only, not the payload size. -/
theorem size_ceiling_counterexample :
    (bigBody.length : Int) > maxSize ∧
    (fetchImageFromServer emptyStore chunkedBigResp "T" "u").1 =
      .success ⟨"image/png", "T", ""⟩ bigBody ∧
    (fetchImageFromServer emptyStore chunkedBigResp "T" "u").2.imgSaves =
      [⟨"u", "orig", "image/png", bigBody⟩] := by
  refine ⟨?_, rfl, rfl⟩
  have h : bigBody.length = 5 * 1048576 + 1 := by
    show (List.replicate (5 * 1048576 + 1) 'a').length = 5 * 1048576 + 1
    exact List.length_replicate _ _
  rw [h]
  decide

/-- C4 amended. The ceiling is enforced on the declared Content-Length: for
every 200 response whose body reads successfully and whose declared
Content-Length exceeds 5 MiB, the fetch fails with the ExceededMaxSize
kind and nothing is scheduled for the content store. -/
theorem declared_size_ceiling (store : Store) (resp : OriginResponse) (now uri : String)
    (ht : resp.transportError = none) (hs : resp.statusCode = 200)
    (hr : resp.readFails = none) (hcl : resp.contentLength > maxSize) :
    fetchImageFromServer store resp now uri =
      (.exceededMaxSize,
        { originFetched := true, resizeComputed := false,
          errSaves := [errSaveOf uri "Exceeded max size"], imgSaves := [] }) := by
  unfold fetchImageFromServer
  rw [ht, hs, hr]
  simp [hcl, noEffects]

/-- C4 amended, witness: a declared length of one byte above the ceiling. -/
theorem declared_size_ceiling_witness :
    fetchImageFromServer emptyStore declaredBigResp "T" "u" =
      (.exceededMaxSize,
        { originFetched := true, resizeComputed := false,
          errSaves := [errSaveOf "u" "Exceeded max size"], imgSaves := [] }) :=
  declared_size_ceiling emptyStore declaredBigResp "T" "u" rfl rfl rfl (by decide)

/-- Helper: the negative-cache writes of one origin fetch, characterised by
its outcome: exactly the three validated failure kinds write, each with the
img/err key and a 600 second expiry. -/
theorem server_errSaves_eq (store : Store) (resp : OriginResponse) (now uri : String) :
    (fetchImageFromServer store resp now uri).2.errSaves =
      match (fetchImageFromServer store resp now uri).1 with
      | .unexpectedStatus => [errSaveOf uri "Unexpected status code"]
      | .exceededMaxSize => [errSaveOf uri "Exceeded max size"]
      | .invalidContentType => [errSaveOf uri "Invalid content-type"]
      | _ => [] := by
  unfold fetchImageFromServer
  rcases resp with ⟨te, sc, cl, ct, bd, rf⟩
  dsimp only
  cases te with
  | some m => rfl
  | none =>
    by_cases h1 : sc ≠ 200
    · rw [if_pos h1]
    · rw [if_neg h1]
      dsimp only
      cases rf with
      | some m => rfl
      | none =>
        by_cases h2 : cl > maxSize
        · rw [if_pos h2]
        · rw [if_neg h2]
          dsimp only
          cases hgs : goStringSlice ct 0 5 with
          | none => rfl
          | some p =>
            by_cases h3 : p ≠ "image"
            · simp [h3]
            · cases hc : (urlStatus store uri).isNone <;> simp [hc, h3, noEffects]

/-- Helper: every negative-cache write of one origin fetch is one of the
three validated failure records. -/
theorem server_errSaves_sub (store : Store) (resp : OriginResponse) (now uri : String) :
    ∀ x ∈ (fetchImageFromServer store resp now uri).2.errSaves,
      x = errSaveOf uri "Unexpected status code" ∨ x = errSaveOf uri "Exceeded max size" ∨
        x = errSaveOf uri "Invalid content-type" := by
  intro x hx
  rw [server_errSaves_eq store resp now uri] at hx
  rcases h : (fetchImageFromServer store resp now uri).1 <;> rw [h] at hx <;>
    simp at hx <;> simp [hx]

/-- Helper: fetchImage adds no negative-cache writes of its own. -/
theorem fetchImage_errSaves_sub (d : String) (store : Store) (resp : OriginResponse)
    (now uri : String) :
    ∀ x ∈ (fetchImage d store resp now uri).2.errSaves,
      x = errSaveOf uri "Unexpected status code" ∨ x = errSaveOf uri "Exceeded max size" ∨
        x = errSaveOf uri "Invalid content-type" := by
  intro x hx
  unfold fetchImage at hx
  split at hx
  · simp [noEffects] at hx
  · split at hx
    · simp [noEffects] at hx
    · dsimp only at hx
      cases hs : (fetchImageFromServer store resp now uri).1 <;> rw [hs] at hx <;>
        simp at hx <;> exact server_errSaves_sub store resp now uri x hx

/-- Helper: fetchResizedImage adds no negative-cache writes of its own; in
particular a resize failure (decode or encode error) records nothing. -/
theorem fetchResized_errSaves_sub (d : String) (store : Store) (resp : OriginResponse)
    (now : String) (decode : String → Except String (Int × Int))
    (re : String → Int → Int → Except String String) (uri : String) (w h : Int) :
    ∀ x ∈ (fetchResizedImage d store resp now decode re uri w h).2.errSaves,
      x = errSaveOf uri "Unexpected status code" ∨ x = errSaveOf uri "Exceeded max size" ∨
        x = errSaveOf uri "Invalid content-type" := by
  intro x hx
  unfold fetchResizedImage at hx
  dsimp only at hx
  split at hx
  · simp [noEffects] at hx
  · cases hf : (fetchImage d store resp now uri).1 with
    | failed m =>
      rw [hf] at hx; simp at hx
      exact fetchImage_errSaves_sub d store resp now uri x hx
    | panicked =>
      rw [hf] at hx; simp at hx
      exact fetchImage_errSaves_sub d store resp now uri x hx
    | ok hh bb =>
      rw [hf] at hx; simp at hx
      cases hr : resizeImage decode re bb hh w h <;> rw [hr] at hx <;> simp at hx <;>
        exact fetchImage_errSaves_sub d store resp now uri x hx

/-- C5. Negative-caching discipline: an origin fetch records a negative
entry (key img/err/url, expiry 600 seconds) exactly when its outcome is
UnexpectedStatus, ExceededMaxSize or InvalidContentType — transport errors,
body-read errors, the short-header panic and success record nothing — and
the whole fetchResizedImage pipeline never records any other negative
entry, so decode and encode failures record nothing. -/
theorem negcache_discipline :
    (∀ (store : Store) (resp : OriginResponse) (now uri : String),
      (fetchImageFromServer store resp now uri).2.errSaves =
        match (fetchImageFromServer store resp now uri).1 with
        | .unexpectedStatus => [errSaveOf uri "Unexpected status code"]
        | .exceededMaxSize => [errSaveOf uri "Exceeded max size"]
        | .invalidContentType => [errSaveOf uri "Invalid content-type"]
        | _ => []) ∧
    (∀ (d : String) (store : Store) (resp : OriginResponse) (now : String)
      (decode : String → Except String (Int × Int))
      (re : String → Int → Int → Except String String) (uri : String) (w h : Int),
      ∀ x ∈ (fetchResizedImage d store resp now decode re uri w h).2.errSaves,
        x = errSaveOf uri "Unexpected status code" ∨ x = errSaveOf uri "Exceeded max size" ∨
          x = errSaveOf uri "Invalid content-type") :=
  ⟨server_errSaves_eq, fetchResized_errSaves_sub⟩

/-- C5 witness: a 404 origin records exactly the unexpected-status entry,
and that entry is among the three allowed records. -/
theorem negcache_discipline_witness :
    (fetchResizedImage "cache" emptyStore status404Resp "T" decodeSmall encodeProbe
        "u" 50 50).2.errSaves = [errSaveOf "u" "Unexpected status code"] ∧
    (errSaveOf "u" "Unexpected status code" = errSaveOf "u" "Unexpected status code" ∨
      errSaveOf "u" "Unexpected status code" = errSaveOf "u" "Exceeded max size" ∨
      errSaveOf "u" "Unexpected status code" = errSaveOf "u" "Invalid content-type") :=
  ⟨by decide,
    negcache_discipline.2 "cache" emptyStore status404Resp "T" decodeSmall encodeProbe
      "u" 50 50 (errSaveOf "u" "Unexpected status code") (by decide)⟩

/-- C6. No-upscale: whenever the decoded dimensions are both at most the
requested target, resizeImage returns the original headers and body
unchanged. -/
theorem resize_no_upscale (decode : String → Except String (Int × Int))
    (re : String → Int → Int → Except String String) (body : String) (hdrs : Headers)
    (w h oW oH : Int) (hdec : decode body = .ok (oW, oH)) (hw : oW ≤ w) (hh : oH ≤ h) :
    resizeImage decode re body hdrs w h = .ok hdrs body := by
  unfold resizeImage
  rw [hdec]
  simp only []
  rw [if_pos ⟨hw, hh⟩]

/-- C6 witness: a 10 by 10 decode with a 50 by 50 target is unchanged. -/
theorem resize_no_upscale_witness :
    resizeImage decodeSmall encodeProbe "B" ⟨"ct", "lm", "cc"⟩ 50 50 =
      .ok ⟨"ct", "lm", "cc"⟩ "B" :=
  resize_no_upscale decodeSmall encodeProbe "B" ⟨"ct", "lm", "cc"⟩ 50 50 10 10 rfl
    (by decide) (by decide)

/-- Helper: the downscale dimensions of a 200 by 100 source for a 50 by 50
target; every intermediate double is exact here. -/
theorem resizedDims_200_100_50_50 : resizedDims 200 100 50 50 = (50, 25) := by
  decide

/-- Helper: the Batteries rational floor is the floor. -/
theorem ratFloor_eq_floor (q : ℚ) : q.floor = ⌊q⌋ := by
  rw [Rat.floor_def', Rat.floor_def]

/-- Helper: the Go int conversion of an integer-valued double is that
integer. -/
theorem goInt_intCast (k : Int) : goInt (.finite (k : ℚ)) = k := by
  show (((k : ℚ)).num).tdiv (((k : ℚ)).den : Int) = k
  rw [Rat.num_intCast, Rat.intCast_den]
  exact Int.tdiv_one k

/-- C7 counterexample. The dimension formula of the claim is stated in
exact arithmetic, but the code computes it in float64: for a decoded 9 by 9
source with a 7 by 7 target — a genuine downscale — the program produces
6 by 6 (ratio rounds to just above 9/7, so 9 divided by it rounds to just
below 7 and floors to 6), while the claimed formula
floor(origW / (max(origW,origH) / min(w,h))) gives 7. -/
theorem downscale_formula_counterexample :
    resizeImage decodeSquare encodeProbe "SRC" ⟨"image/gif", "LM", "CC"⟩ 7 7 =
      .ok ⟨"image/png", "LM", "CC"⟩ "R6x6" ∧
    resizedDims 9 9 7 7 = (6, 6) ∧
    ¬((7 : Int) ≥ 9 ∧ (7 : Int) ≥ 9) ∧
    ⌊(9 : ℚ) / (max (9 : ℚ) 9 / min (7 : ℚ) 7)⌋ = 7 := by
  refine ⟨by decide, by decide, by decide, ?_⟩
  norm_num

/-- C7 amended. Downscale dimension formula in double precision: whenever
the two per-axis quotients origW / ratio and origH / ratio (ratio = the
larger original dimension over the smaller target dimension, all computed
in IEEE-754 float64) are finite doubles qW and qH, the computed dimensions
are exactly their floors, and each is within one of the corresponding
quotient (the floor-rounding aspect bound, now relative to the computed
double quotient rather than the exact ratio); and the 200 by 100 source at
a 50 by 50 target — where every intermediate double is exact, so the exact
formula agrees — yields 50 by 25 with the forced image/png content type
(the resample stub records the requested dimensions in the body). -/
theorem resize_downscale_formula :
    (∀ oW oH w h : Int, ∀ qW qH : ℚ,
      goDiv (goFromInt oW)
          (goDiv (goMax (goFromInt oW) (goFromInt oH))
            (goMin (goFromInt w) (goFromInt h))) = .finite qW →
      goDiv (goFromInt oH)
          (goDiv (goMax (goFromInt oW) (goFromInt oH))
            (goMin (goFromInt w) (goFromInt h))) = .finite qH →
      resizedDims oW oH w h = (⌊qW⌋, ⌊qH⌋) ∧
        ((⌊qW⌋ : ℚ) ≤ qW ∧ qW < ⌊qW⌋ + 1) ∧ ((⌊qH⌋ : ℚ) ≤ qH ∧ qH < ⌊qH⌋ + 1)) ∧
    resizeImage decodeWide encodeProbe "SRC" ⟨"image/gif", "LM", "CC"⟩ 50 50 =
      .ok ⟨"image/png", "LM", "CC"⟩ "R50x25" := by
  constructor
  · intro oW oH w h qW qH hW hH
    refine ⟨?_, ⟨Int.floor_le _, Int.lt_floor_add_one _⟩,
      ⟨Int.floor_le _, Int.lt_floor_add_one _⟩⟩
    unfold resizedDims
    dsimp only
    rw [hW, hH]
    simp [goFloor, ratFloor_eq_floor, goInt_intCast]
  · decide

/-- C7 amended, witness: at the 200 by 100 source and 50 by 50 target the
two double quotients are the exact values 50 and 25. -/
theorem resize_downscale_formula_witness :
    resizedDims 200 100 50 50 = (⌊(50 : ℚ)⌋, ⌊(25 : ℚ)⌋) ∧
      ((⌊(50 : ℚ)⌋ : ℚ) ≤ 50 ∧ (50 : ℚ) < ⌊(50 : ℚ)⌋ + 1) ∧
      ((⌊(25 : ℚ)⌋ : ℚ) ≤ 25 ∧ (25 : ℚ) < ⌊(25 : ℚ)⌋ + 1) :=
  resize_downscale_formula.1 200 100 50 50 50 25 (by decide) (by decide)

/-- Helper: a list containing a character that is not a hex digit does not
hex-decode. -/
theorem hex_bad : ∀ l : List Char, (∃ c ∈ l, hexVal c = none) → goHexDecode l = none := by
  intro l
  induction l using goHexDecode.induct with
  | case1 =>
    intro hex
    obtain ⟨c, hc, _⟩ := hex
    cases hc
  | case2 a => intro _; rfl
  | case3 a b rest x y hyb hxa cs hrest ih =>
    intro hex
    obtain ⟨c, hc, hbad⟩ := hex
    rcases List.mem_cons.mp hc with rfl | hc2
    · rw [hxa] at hbad; cases hbad
    · rcases List.mem_cons.mp hc2 with rfl | hc3
      · rw [hyb] at hbad; cases hbad
      · have hr := ih ⟨c, hc3, hbad⟩
        rw [hr] at hrest; cases hrest
  | case4 a b rest x y hyb hxa hrest ih =>
    intro _
    simp [goHexDecode, hxa, hyb, hrest]
  | case5 a b rest hcontra =>
    intro _
    cases ha : hexVal a with
    | none => simp [goHexDecode, ha]
    | some x =>
      cases hb : hexVal b with
      | none => simp [goHexDecode, ha, hb]
      | some y => exact (hcontra x y ha hb).elim

/-- C8. Boundary validation: when the width or the height does not parse as
a base-10 integer, or both parse but their product exceeds the 5 MiB
constant, or the encoded url contains a non-hex character, the handler
answers 400 Bad Request and the pipeline is never invoked (so no origin
fetch, no cache access and no resize happens). -/
theorem image_validation (sW sH eu ims : String) (pl : String → Int → Int → PipeResult)
    (hbad : goParseInt32 sW = none ∨ goParseInt32 sH = none ∨
      (∃ w h, goParseInt32 sW = some w ∧ goParseInt32 sH = some h ∧ w * h > maxSize) ∨
      (∃ c ∈ eu.data, hexVal c = none)) :
    (∃ msg, (Image sW sH eu ims pl).1 = .badRequest msg) ∧ (Image sW sH eu ims pl).2 = false := by
  unfold Image
  rcases hbad with h | h | ⟨w, h2, hw1, hw2, hgt⟩ | hhex
  · rw [h]
    exact ⟨⟨_, rfl⟩, rfl⟩
  · cases hsW : goParseInt32 sW with
    | none => exact ⟨⟨_, rfl⟩, rfl⟩
    | some w =>
      rw [h]
      exact ⟨⟨_, rfl⟩, rfl⟩
  · rw [hw1, hw2]
    simp [hgt]
  · cases hsW : goParseInt32 sW with
    | none => exact ⟨⟨_, rfl⟩, rfl⟩
    | some w =>
      cases hsH : goParseInt32 sH with
      | none => exact ⟨⟨_, rfl⟩, rfl⟩
      | some h2 =>
        by_cases hgt : w * h2 > maxSize
        · simp [hgt]
        · simp [hgt, hex_bad eu.data hhex]

/-- C8 witness: a non-numeric width is rejected without pipeline work. -/
theorem image_validation_witness :
    (∃ msg, (Image "abc" "10" "6162" "" probePipeline).1 = .badRequest msg) ∧
    (Image "abc" "10" "6162" "" probePipeline).2 = false :=
  image_validation "abc" "10" "6162" "" probePipeline (Or.inl (by decide))

/-- C9. Conditional response: for every request that passes validation and
whose pipeline run succeeds, the handler answers 304 Not Modified (with no
body and no headers written) exactly when the If-Modified-Since header
equals the computed Last-Modified value, and otherwise sends the body with
the Content-Type, Last-Modified and Cache-Control headers. -/
theorem image_conditional (sW sH eu ims : String) (pl : String → Int → Int → PipeResult)
    (w h : Int) (cs : List Char) (hdrs : Headers) (body : String)
    (hW : goParseInt32 sW = some w) (hH : goParseInt32 sH = some h)
    (hsz : ¬w * h > maxSize) (hhex : goHexDecode eu.data = some cs)
    (hpl : pl ⟨cs⟩ w h = .ok hdrs body) :
    (Image sW sH eu ims pl).1 =
      (if hdrs.lastModified = ims then .notModified
        else .okResp hdrs.contentType hdrs.lastModified hdrs.cacheControl body) ∧
    (Image sW sH eu ims pl).2 = true := by
  unfold Image
  rw [hW, hH]
  by_cases hc : hdrs.lastModified = ims <;> simp [hsz, hhex, hpl, hc]

/-- C9 witness: a matching If-Modified-Since yields 304. -/
theorem image_conditional_witness :
    (Image "10" "20" "61" "LM" okPipeline).1 =
      (if ("LM" : String) = "LM" then HttpResponse.notModified
        else .okResp "ct" "LM" "cc" "BD") ∧
    (Image "10" "20" "61" "LM" okPipeline).2 = true :=
  image_conditional "10" "20" "61" "LM" okPipeline 10 20 ['a'] ⟨"ct", "LM", "cc"⟩ "BD"
    (by decide) (by decide) (by decide) (by decide) rfl
